import Mathlib

/-!
Verification of `job_search_emailer.py`: a shallow embedding of the
data model of the script, deduplication loop, HTML formatter and orchestrator,
with theorems settling the claims of the specification.

Python dictionaries `{"title": ..., "link": ..., "snippet": ...}` are
embedded as a structure of `Option String` fields (`dict.get` returns
`None` for an absent key).  Python truthiness of an optional string
(`if link:` / `x or default`) is `pyTruthy` / `pyOrStr`.  The imperative
for-loop over `aggregated` with its `seen` set, `dedup` accumulator and
`break` at `MAX_RESULTS` is the structural recursion `dedupLoop`, carrying
`seen` as a list of strings and the accumulator explicitly.
-/

namespace JobSearchEmailer

/-- A parsed search result: the dict built in `extract_links_from_serpapi_json`,
with each field `Option`al since `e.get(...)` can return `None`. -/
structure SearchResult where
  title : Option String
  link : Option String
  snippet : Option String
deriving DecidableEq, Repr

/-- The constant `MAX_RESULTS = 20` from the configuration section of the script. -/
def MAX_RESULTS : Nat := 20

/-- Python truthiness of an optional string: `None` and `""` are falsy. -/
def pyTruthy : Option String → Bool
  | none => false
  | some s => !(s == "")

/-- Python `x or default` for an optional string `x`: the default is used
when `x` is `None` or the empty string. -/
def pyOrStr (x : Option String) (default : String) : String :=
  match x with
  | none => default
  | some s => if s == "" then default else s

/-- One step of the dedup loop body: given the current `seen` set and
`dedup` accumulator, process one item exactly as lines 107-111 of the
script do (`if link and link not in seen: seen.add(link); dedup.append(item)`). -/
def dedupStep (seen : List String) (acc : List SearchResult)
    (item : SearchResult) : List String × List SearchResult :=
  match item.link with
  | some l =>
      if l != "" && !(seen.contains l) then (l :: seen, acc ++ [item])
      else (seen, acc)
  | none => (seen, acc)

/-- The dedup loop of `main` (lines 105-113): fold over the aggregated
items, updating `seen`/`dedup` via `dedupStep`, and `break` as soon as
`len(dedup) >= MAX_RESULTS` (checked after every iteration, added or not). -/
def dedupLoop (maxR : Nat) : List SearchResult → List String → List SearchResult → List SearchResult
  | [], _, acc => acc
  | item :: rest, seen, acc =>
      let s := dedupStep seen acc item
      if maxR ≤ s.2.length then s.2
      else dedupLoop maxR rest s.1 s.2

/-- The aggregator: `seen = set(); dedup = []` then the loop, with the
configured `MAX_RESULTS`. -/
def dedupResults (aggregated : List SearchResult) : List SearchResult :=
  dedupLoop MAX_RESULTS aggregated [] []

/-- Modelled from the spec: the unbounded (cap-free) deduplication of the
input, keeping the first occurrence of each non-empty link with the same
`seen`-set discipline but never stopping early. -/
def uncappedDedup : List SearchResult → List String → List SearchResult
  | [], _ => []
  | item :: rest, seen =>
      match item.link with
      | some l =>
          if l != "" && !(seen.contains l) then item :: uncappedDedup rest (l :: seen)
          else uncappedDedup rest seen
      | none => uncappedDedup rest seen

/-- Modelled from the spec: an entry is kept exactly when its link is
non-empty and no strictly earlier entry of the input carries the same
link; `prior` is the list of entries already scanned. -/
def specFirstOccurGo : List SearchResult → List SearchResult → List SearchResult
  | _, [] => []
  | prior, r :: rest =>
      if pyTruthy r.link && !(prior.any fun p => p.link == r.link) then
        r :: specFirstOccurGo (prior ++ [r]) rest
      else specFirstOccurGo (prior ++ [r]) rest

/-- Modelled from the spec: the sequence of first occurrences of each
non-empty link, in input order. -/
def specFirstOccurrences (items : List SearchResult) : List SearchResult :=
  specFirstOccurGo [] items

/-! ### HTML formatter (`format_email_html`, lines 63-77)

The current timestamp (`datetime.datetime.now().strftime(...)` on line 64)
is the only input the Python function reads besides `results`; it is
passed here as the explicit parameter `dt`, so the embedding is a pure
function of the result list and the timestamp. -/

/-- The heading built on line 65 from the formatted timestamp. -/
def emailHeading (dt : String) : String :=
  "<h2>Daily Jobs — Entry-level AI (Collected " ++ dt ++ ")</h2>"

/-- The opening table tag appended on line 69. -/
def tableOpen : String :=
  "<table border=\x270\x27 cellpadding=\x276\x27 cellspacing=\x270\x27>"

/-- The table header row appended on line 70. -/
def headerRow : String :=
  "<tr><th align=\x27left\x27>Title</th><th align=\x27left\x27>Company / Snippet</th><th align=\x27left\x27>Link</th></tr>"

/-- One table row (lines 72-75): `title or "No title"`, `snippet or ""`,
`link or ""` interpolated into the row template. -/
def resultRow (r : SearchResult) : String :=
  "<tr><td>" ++ pyOrStr r.title "No title" ++ "</td><td>" ++ pyOrStr r.snippet ""
    ++ "</td><td><a href=\x27" ++ pyOrStr r.link "" ++ "\x27>link</a></td></tr>"

/-- The function `format_email_html` (lines 63-77): heading, then either the
"no results" paragraph when the list is falsy (empty), or the table built
by appending one row per result in order. -/
def format_email_html (results : List SearchResult) (dt : String) : String :=
  let html := emailHeading dt
  if results.isEmpty then html ++ "<p>No results found.</p>"
  else (results.foldl (fun h r => h ++ resultRow r) (html ++ tableOpen ++ headerRow))
    ++ "</table>"

/-! ### Orchestrator (`main`, lines 91-120)

Effects are made explicit: the per-query provider call
(`search_with_serpapi` followed by `extract_links_from_serpapi_json`) is
a parameter `fetch` returning either the parsed result list or the message of the raised
exception, and the SMTP send (`send_email_html`) is a parameter
`send` returning either success or the message of the raised exception.
`main` returns the trace of observable actions (console logs and the
attempted send) together with the deduplicated list; it is a total
function, so every modelled run terminates normally. -/

/-- The hardcoded query list (lines 32-37). -/
def SEARCH_QUERIES : List String :=
  ["site:linkedin.com \"entry level\" \"machine learning engineer\" OR \"AI engineer\"",
   "site:indeed.com \"entry level\" \"machine learning\" \"engineer\"",
   "site:angel.co \"machine learning engineer\" \"junior\"",
   "\"entry level\" \"AI Engineer\" \"new grad\""]

/-- Observable actions of one run of `main`. -/
inductive Event where
  /-- The provider call for query `q` was issued (line 96). -/
  | queryAttempted (q : String)
  /-- The per-query exception handler logged query `q` and message `msg`
  (line 100). -/
  | providerErrorLogged (q : String) (msg : String)
  /-- The advisory message for a missing API key was logged (line 103). -/
  | noKeyLogged
  /-- The call `send_email_html subject body` was invoked (line 117). -/
  | sendAttempted (subject : String) (body : String)
  /-- The success line with the item count was logged (line 118). -/
  | sentLogged (count : Nat)
  /-- The send-failure line was logged (line 120). -/
  | sendFailureLogged (msg : String)
deriving DecidableEq, Repr

/-- One iteration of the query loop (lines 95-100): call the provider
for `q`; on success extend `aggregated`, on failure log and continue. -/
def queryStep (fetch : String → Except String (List SearchResult))
    (st : List SearchResult × List Event) (q : String) :
    List SearchResult × List Event :=
  match fetch q with
  | .ok rs => (st.1 ++ rs, st.2 ++ [.queryAttempted q])
  | .error e => (st.1, st.2 ++ [.queryAttempted q, .providerErrorLogged q e])

/-- The query loop (lines 94-100): fold `queryStep` over the configured
queries starting from an empty aggregation. -/
def queryPhase (fetch : String → Except String (List SearchResult))
    (qs : List String) : List SearchResult × List Event :=
  qs.foldl (queryStep fetch) ([], [])

/-- The result list the query loop contributes for one query: the parsed
results on success, nothing on failure. -/
def fetchResults (fetch : String → Except String (List SearchResult))
    (q : String) : List SearchResult :=
  match fetch q with
  | .ok rs => rs
  | .error _ => []

/-- The trace the query loop leaves for one query. -/
def fetchTrace (fetch : String → Except String (List SearchResult))
    (q : String) : List Event :=
  match fetch q with
  | .ok _ => [.queryAttempted q]
  | .error e => [.queryAttempted q, .providerErrorLogged q e]

/-- The function `main` (lines 91-120): run the query phase when the API key is truthy
(else log the advisory), deduplicate, format, attempt the send, and log
success with the count or the failure message. -/
def main (serpapiKey : Option String)
    (fetch : String → Except String (List SearchResult))
    (send : String → String → Except String Unit)
    (now today : String) : List Event × List SearchResult :=
  let p := if pyTruthy serpapiKey then queryPhase fetch SEARCH_QUERIES
           else (([] : List SearchResult), [Event.noKeyLogged])
  let dedup := dedupResults p.1
  let html := format_email_html dedup now
  let subject := "[Daily] Entry-level AI Jobs — " ++ today
  match send subject html with
  | .ok _ => (p.2 ++ [.sendAttempted subject html, .sentLogged dedup.length], dedup)
  | .error e => (p.2 ++ [.sendAttempted subject html, .sendFailureLogged e], dedup)

/-! ### Concrete inputs used to exercise the theorems -/

/-- Twenty results with pairwise distinct non-empty links: enough to fill
the `MAX_RESULTS` cap exactly. -/
def twentyDistinct : List SearchResult :=
  [⟨none, some "a", none⟩, ⟨none, some "b", none⟩, ⟨none, some "c", none⟩,
   ⟨none, some "d", none⟩, ⟨none, some "e", none⟩, ⟨none, some "f", none⟩,
   ⟨none, some "g", none⟩, ⟨none, some "h", none⟩, ⟨none, some "i", none⟩,
   ⟨none, some "j", none⟩, ⟨none, some "k", none⟩, ⟨none, some "l", none⟩,
   ⟨none, some "m", none⟩, ⟨none, some "n", none⟩, ⟨none, some "o", none⟩,
   ⟨none, some "p", none⟩, ⟨none, some "q", none⟩, ⟨none, some "r", none⟩,
   ⟨none, some "s", none⟩, ⟨none, some "t", none⟩]

/-- A provider stub failing on the second configured query and returning
one fixed result for the others. -/
def oneFailingFetch : String → Except String (List SearchResult) := fun q =>
  if q == "site:indeed.com \"entry level\" \"machine learning\" \"engineer\"" then
    Except.error "boom"
  else Except.ok [⟨some "A", some "x", none⟩]

/-- A send stub that always succeeds. -/
def okSend : String → String → Except String Unit := fun _ _ => Except.ok ()

end JobSearchEmailer

namespace JobSearchEmailer

example :
    dedupResults [⟨some "A", some "x", none⟩, ⟨some "B", some "x", none⟩,
      ⟨some "C", some "y", none⟩] =
      [⟨some "A", some "x", none⟩, ⟨some "C", some "y", none⟩] := by decide

example :
    dedupLoop 1 [⟨none, some "x", none⟩, ⟨none, some "y", none⟩] [] [] =
      [⟨none, some "x", none⟩] := by decide

example :
    format_email_html [] "t" = emailHeading "t" ++ "<p>No results found.</p>" := by rfl

example :
    resultRow ⟨none, none, none⟩ =
      "<tr><td>No title</td><td></td><td><a href=\x27\x27>link</a></td></tr>" := by rfl

/-! ### Helper lemmas about the dedup loop -/

lemma dedupStep_length_le (seen : List String) (acc : List SearchResult)
    (item : SearchResult) : (dedupStep seen acc item).2.length ≤ acc.length + 1 := by
  rcases h : item.link with - | l <;> simp only [dedupStep, h]
  · simp
  · split <;> simp

/-- Invariant of the dedup loop: if every accumulated entry has a
non-empty link recorded in `seen`, and accumulated links are pairwise
distinct, then the final output keeps both properties. -/
lemma dedupLoop_inv (maxR : Nat) :
    ∀ (items : List SearchResult) (seen : List String) (acc : List SearchResult),
    (∀ r ∈ acc, ∃ l, r.link = some l ∧ l ≠ "" ∧ l ∈ seen) →
    acc.Pairwise (fun a b => a.link ≠ b.link) →
    (∀ r ∈ dedupLoop maxR items seen acc, ∃ l, r.link = some l ∧ l ≠ "") ∧
      (dedupLoop maxR items seen acc).Pairwise (fun a b => a.link ≠ b.link)
  | [], seen, acc, hmem, hpw => by
      refine ⟨fun r hr => ?_, hpw⟩
      obtain ⟨l, hl, hne, -⟩ := hmem r hr
      exact ⟨l, hl, hne⟩
  | item :: rest, seen, acc, hmem, hpw => by
      rw [dedupLoop]
      rcases hlink : item.link with - | l
      · have hstep : dedupStep seen acc item = (seen, acc) := by
          unfold dedupStep; rw [hlink]
        rw [hstep]
        split
        · refine ⟨fun r hr => ?_, hpw⟩
          obtain ⟨l, hl, hne, -⟩ := hmem r hr
          exact ⟨l, hl, hne⟩
        · exact dedupLoop_inv maxR rest seen acc hmem hpw
      · by_cases hc : (l != "" && !(seen.contains l)) = true
        · have hstep : dedupStep seen acc item = (l :: seen, acc ++ [item]) := by
            unfold dedupStep; rw [hlink]
            show (if (l != "" && !(seen.contains l)) = true
                then (l :: seen, acc ++ [item]) else (seen, acc)) = _
            rw [if_pos hc]
          have hlne : l ≠ "" := by
            have := (Bool.and_eq_true _ _).mp hc |>.1
            simpa using this
          have hlnotin : l ∉ seen := by
            have := (Bool.and_eq_true _ _).mp hc |>.2
            simpa using this
          have hmem' : ∀ r ∈ acc ++ [item], ∃ l', r.link = some l' ∧ l' ≠ "" ∧ l' ∈ l :: seen := by
            intro r hr
            rcases List.mem_append.mp hr with h | h
            · obtain ⟨l', hl', hne', hin'⟩ := hmem r h
              exact ⟨l', hl', hne', List.mem_cons_of_mem _ hin'⟩
            · rw [List.mem_singleton.mp h]
              exact ⟨l, hlink, hlne, List.mem_cons_self _ _⟩
          have hpw' : (acc ++ [item]).Pairwise (fun a b => a.link ≠ b.link) := by
            rw [List.pairwise_append]
            refine ⟨hpw, List.pairwise_singleton _ _, fun a ha b hb => ?_⟩
            rw [List.mem_singleton.mp hb]
            obtain ⟨l', hl', -, hin'⟩ := hmem a ha
            rw [hl', hlink]
            intro h
            exact hlnotin (Option.some.inj h ▸ hin')
          rw [hstep]
          split
          · refine ⟨fun r hr => ?_, hpw'⟩
            obtain ⟨l', hl', hne', -⟩ := hmem' r hr
            exact ⟨l', hl', hne'⟩
          · exact dedupLoop_inv maxR rest (l :: seen) (acc ++ [item]) hmem' hpw'
        · have hstep : dedupStep seen acc item = (seen, acc) := by
            unfold dedupStep; rw [hlink]
            show (if (l != "" && !(seen.contains l)) = true
                then (l :: seen, acc ++ [item]) else (seen, acc)) = _
            rw [if_neg hc]
          rw [hstep]
          split
          · refine ⟨fun r hr => ?_, hpw⟩
            obtain ⟨l', hl', hne', -⟩ := hmem r hr
            exact ⟨l', hl', hne'⟩
          · exact dedupLoop_inv maxR rest seen acc hmem hpw

lemma dedupStep_none {item : SearchResult} (seen : List String)
    (acc : List SearchResult) (h : item.link = none) :
    dedupStep seen acc item = (seen, acc) := by
  unfold dedupStep; rw [h]

lemma dedupStep_keep {item : SearchResult} {l : String} (seen : List String)
    (acc : List SearchResult) (h : item.link = some l)
    (hc : (l != "" && !(seen.contains l)) = true) :
    dedupStep seen acc item = (l :: seen, acc ++ [item]) := by
  unfold dedupStep; rw [h]
  show (if (l != "" && !(seen.contains l)) = true
      then (l :: seen, acc ++ [item]) else (seen, acc)) = _
  rw [if_pos hc]

lemma dedupStep_skip {item : SearchResult} {l : String} (seen : List String)
    (acc : List SearchResult) (h : item.link = some l)
    (hc : ¬ (l != "" && !(seen.contains l)) = true) :
    dedupStep seen acc item = (seen, acc) := by
  unfold dedupStep; rw [h]
  show (if (l != "" && !(seen.contains l)) = true
      then (l :: seen, acc ++ [item]) else (seen, acc)) = _
  rw [if_neg hc]

lemma uncappedDedup_cons_none {item : SearchResult} (rest : List SearchResult)
    (seen : List String) (h : item.link = none) :
    uncappedDedup (item :: rest) seen = uncappedDedup rest seen := by
  simp [uncappedDedup, h]

lemma uncappedDedup_cons_keep {item : SearchResult} {l : String}
    (rest : List SearchResult) (seen : List String) (h : item.link = some l)
    (hc : (l != "" && !(seen.contains l)) = true) :
    uncappedDedup (item :: rest) seen = item :: uncappedDedup rest (l :: seen) := by
  simp only [uncappedDedup, h]
  rw [if_pos hc]

lemma uncappedDedup_cons_skip {item : SearchResult} {l : String}
    (rest : List SearchResult) (seen : List String) (h : item.link = some l)
    (hc : ¬ (l != "" && !(seen.contains l)) = true) :
    uncappedDedup (item :: rest) seen = uncappedDedup rest seen := by
  simp only [uncappedDedup, h]
  rw [if_neg hc]

/-- The loop never grows the output past `maxR` once started strictly
below it. -/
lemma dedupLoop_length_le (maxR : Nat) :
    ∀ (items : List SearchResult) (seen : List String) (acc : List SearchResult),
    acc.length < maxR → (dedupLoop maxR items seen acc).length ≤ maxR
  | [], seen, acc, h => by
      rw [dedupLoop]; exact Nat.le_of_lt h
  | item :: rest, seen, acc, h => by
      rw [dedupLoop]
      have hle : (dedupStep seen acc item).2.length ≤ acc.length + 1 :=
        dedupStep_length_le seen acc item
      split
      · exact Nat.le_trans hle h
      · next hnot =>
          exact dedupLoop_length_le maxR rest _ _ (Nat.lt_of_not_le hnot)

lemma dedupLoop_cons (maxR : Nat) (item : SearchResult) (rest : List SearchResult)
    (seen : List String) (acc : List SearchResult) :
    dedupLoop maxR (item :: rest) seen acc =
      if maxR ≤ (dedupStep seen acc item).2.length then (dedupStep seen acc item).2
      else dedupLoop maxR rest (dedupStep seen acc item).1 (dedupStep seen acc item).2 := rfl

/-- The capped loop returns the accumulator followed by a prefix of the
uncapped deduplication, of length filling the remaining budget. -/
lemma dedupLoop_eq_take (maxR : Nat) :
    ∀ (items : List SearchResult) (seen : List String) (acc : List SearchResult),
    acc.length < maxR →
    dedupLoop maxR items seen acc = acc ++ (uncappedDedup items seen).take (maxR - acc.length)
  | [], seen, acc, _ => by
      rw [dedupLoop]; simp [uncappedDedup]
  | item :: rest, seen, acc, h => by
      rw [dedupLoop_cons]
      rcases hlink : item.link with - | l
      · rw [dedupStep_none seen acc hlink, uncappedDedup_cons_none rest seen hlink]
        rw [if_neg (Nat.not_le_of_lt h)]
        exact dedupLoop_eq_take maxR rest seen acc h
      · by_cases hc : (l != "" && !(seen.contains l)) = true
        · rw [dedupStep_keep seen acc hlink hc, uncappedDedup_cons_keep rest seen hlink hc]
          have htake : (item :: uncappedDedup rest (l :: seen)).take (maxR - acc.length)
              = item :: (uncappedDedup rest (l :: seen)).take (maxR - acc.length - 1) := by
            obtain ⟨k, hk⟩ : ∃ k, maxR - acc.length = k + 1 :=
              ⟨maxR - acc.length - 1, by omega⟩
            rw [hk, List.take_succ_cons]
            simp
          by_cases hcap : maxR ≤ (acc ++ [item]).length
          · rw [if_pos hcap]
            have hlen : (acc ++ [item]).length = acc.length + 1 := by simp
            have hz : maxR - acc.length - 1 = 0 := by omega
            rw [htake, hz, List.take_zero]
          · rw [if_neg hcap]
            have hlt : (acc ++ [item]).length < maxR := Nat.lt_of_not_le hcap
            rw [dedupLoop_eq_take maxR rest (l :: seen) (acc ++ [item]) hlt]
            have hlen : (acc ++ [item]).length = acc.length + 1 := by simp
            rw [htake, hlen]
            have hd : maxR - (acc.length + 1) = maxR - acc.length - 1 := by omega
            rw [hd]
            simp
        · rw [dedupStep_skip seen acc hlink hc, uncappedDedup_cons_skip rest seen hlink hc]
          rw [if_neg (Nat.not_le_of_lt h)]
          exact dedupLoop_eq_take maxR rest seen acc h

/-- Once the output of the loop has reached the cap, anything appended after
the processed items is never scanned. -/
lemma dedupLoop_append_of_full (maxR : Nat) :
    ∀ (items post : List SearchResult) (seen : List String) (acc : List SearchResult),
    acc.length < maxR →
    (dedupLoop maxR items seen acc).length = maxR →
    dedupLoop maxR (items ++ post) seen acc = dedupLoop maxR items seen acc
  | [], post, seen, acc, hlt, hfull => by
      rw [dedupLoop] at hfull
      omega
  | item :: rest, post, seen, acc, hlt, hfull => by
      rw [dedupLoop_cons] at hfull
      rw [List.cons_append, dedupLoop_cons, dedupLoop_cons]
      by_cases hcap : maxR ≤ (dedupStep seen acc item).2.length
      · rw [if_pos hcap, if_pos hcap]
      · rw [if_neg hcap] at hfull ⊢
        rw [if_neg hcap]
        exact dedupLoop_append_of_full maxR rest post _ _ (Nat.lt_of_not_le hcap) hfull

/-- Entries with a falsy (absent or empty) link are invisible to the
loop: filtering them away first changes nothing. -/
lemma dedupLoop_filter (maxR : Nat) :
    ∀ (items : List SearchResult) (seen : List String) (acc : List SearchResult),
    acc.length < maxR →
    dedupLoop maxR items seen acc =
      dedupLoop maxR (items.filter fun r => pyTruthy r.link) seen acc
  | [], _, _, _ => by simp
  | item :: rest, seen, acc, h => by
      rcases hlink : item.link with - | l
      · have hfalsy : (pyTruthy item.link) = false := by rw [hlink]; rfl
        rw [List.filter_cons_of_neg (by simp [hfalsy])]
        rw [dedupLoop_cons, dedupStep_none seen acc hlink]
        rw [if_neg (Nat.not_le_of_lt h)]
        exact dedupLoop_filter maxR rest seen acc h
      · by_cases hl : l = ""
        · subst hl
          have hfalsy : (pyTruthy item.link) = false := by rw [hlink]; rfl
          have hc : ¬ (("" != "" && !(seen.contains "")) = true) := by simp
          rw [List.filter_cons_of_neg (by simp [hfalsy])]
          rw [dedupLoop_cons, dedupStep_skip seen acc hlink hc]
          rw [if_neg (Nat.not_le_of_lt h)]
          exact dedupLoop_filter maxR rest seen acc h
        · have htruthy : (pyTruthy item.link) = true := by
            rw [hlink]; simp [pyTruthy, hl]
          rw [@List.filter_cons_of_pos _ (fun r => pyTruthy r.link) item rest htruthy]
          rw [dedupLoop_cons, dedupLoop_cons]
          by_cases hcap : maxR ≤ (dedupStep seen acc item).2.length
          · rw [if_pos hcap, if_pos hcap]
          · rw [if_neg hcap, if_neg hcap]
            exact dedupLoop_filter maxR rest _ _ (Nat.lt_of_not_le hcap)

/-- The uncapped deduplication is a sublist of its input: output order is
input order. -/
lemma uncappedDedup_sublist : ∀ (items : List SearchResult) (seen : List String),
    List.Sublist (uncappedDedup items seen) items
  | [], seen => by simp [uncappedDedup]
  | item :: rest, seen => by
      rcases hlink : item.link with - | l
      · rw [uncappedDedup_cons_none rest seen hlink]
        exact (uncappedDedup_sublist rest seen).cons item
      · by_cases hc : (l != "" && !(seen.contains l)) = true
        · rw [uncappedDedup_cons_keep rest seen hlink hc]
          exact (uncappedDedup_sublist rest (l :: seen)).cons₂ item
        · rw [uncappedDedup_cons_skip rest seen hlink hc]
          exact (uncappedDedup_sublist rest seen).cons item

lemma specFirstOccurGo_cons (prior : List SearchResult) (r : SearchResult)
    (rest : List SearchResult) :
    specFirstOccurGo prior (r :: rest) =
      if (pyTruthy r.link && !(prior.any fun p => p.link == r.link)) = true then
        r :: specFirstOccurGo (prior ++ [r]) rest
      else specFirstOccurGo (prior ++ [r]) rest := rfl

/-- The `seen`-set discipline of the loop agrees with the first-occurrence
reading of the specification: when `seen` records exactly the non-empty links
of the already-scanned `prior` entries, the uncapped loop computes the
first occurrences among the remaining entries. -/
lemma uncapped_eq_spec :
    ∀ (items : List SearchResult) (seen : List String) (prior : List SearchResult),
    (∀ l : String, l ≠ "" → (seen.contains l = prior.any fun p => p.link == some l)) →
    uncappedDedup items seen = specFirstOccurGo prior items
  | [], _, _, _ => by simp [uncappedDedup, specFirstOccurGo]
  | item :: rest, seen, prior, hinv => by
      rcases hlink : item.link with - | l
      · rw [uncappedDedup_cons_none rest seen hlink, specFirstOccurGo_cons]
        have hcond : ¬ ((pyTruthy item.link
            && !(prior.any fun p => p.link == item.link)) = true) := by
          rw [hlink]; simp [pyTruthy]
        rw [if_neg hcond]
        apply uncapped_eq_spec rest seen (prior ++ [item])
        intro l' hl'
        rw [hinv l' hl', List.any_append]
        simp [hlink]
      · by_cases hle : l = ""
        · subst hle
          rw [uncappedDedup_cons_skip rest seen hlink (by simp), specFirstOccurGo_cons]
          have hcond : ¬ ((pyTruthy item.link
              && !(prior.any fun p => p.link == item.link)) = true) := by
            rw [hlink]; simp [pyTruthy]
          rw [if_neg hcond]
          apply uncapped_eq_spec rest seen (prior ++ [item])
          intro l' hl'
          rw [hinv l' hl', List.any_append]
          have hb : (item.link == some l') = false := by
            rw [hlink]
            simp only [Option.some_beq_some]
            exact beq_eq_false_iff_ne.mpr (Ne.symm hl')
          simp [hb]
        · by_cases hseen : seen.contains l = true
          · have hmem : l ∈ seen := by simpa using hseen
            have hc : ¬ ((l != "" && !(seen.contains l)) = true) := by simp [hmem]
            rw [uncappedDedup_cons_skip rest seen hlink hc, specFirstOccurGo_cons]
            have hprior : (prior.any fun p => p.link == item.link) = true := by
              rw [hlink, ← hinv l hle]; exact hseen
            have hcond : ¬ ((pyTruthy item.link
                && !(prior.any fun p => p.link == item.link)) = true) := by
              simp [hprior]
            rw [if_neg hcond]
            apply uncapped_eq_spec rest seen (prior ++ [item])
            intro l' hl'
            rw [hinv l' hl', List.any_append]
            by_cases hll : l' = l
            · subst hll
              have hp : (prior.any fun p => p.link == some l') = true := by
                rw [← hinv l' hl']; exact hseen
              simp [hp]
            · have hb : (item.link == some l') = false := by
                rw [hlink]
                simp only [Option.some_beq_some]
                exact beq_eq_false_iff_ne.mpr (fun h => hll h.symm)
              simp [hb]
          · have hc : (l != "" && !(seen.contains l)) = true := by
              simp only [Bool.and_eq_true, bne_iff_ne, ne_eq, Bool.not_eq_true']
              exact ⟨hle, Bool.eq_false_iff.mpr hseen⟩
            rw [uncappedDedup_cons_keep rest seen hlink hc, specFirstOccurGo_cons]
            have hprior : (prior.any fun p => p.link == item.link) = false := by
              rw [hlink, ← hinv l hle]; exact Bool.eq_false_iff.mpr hseen
            have hcond : (pyTruthy item.link
                && !(prior.any fun p => p.link == item.link)) = true := by
              rw [hprior, hlink]
              simp [pyTruthy, hle]
            rw [if_pos hcond]
            congr 1
            apply uncapped_eq_spec rest (l :: seen) (prior ++ [item])
            intro l' hl'
            rw [List.contains_cons, List.any_append]
            by_cases hll : l' = l
            · subst hll
              simp [hlink]
            · have h1 : (l' == l) = false := beq_eq_false_iff_ne.mpr hll
              have hb : (item.link == some l') = false := by
                rw [hlink]
                simp only [Option.some_beq_some]
                exact beq_eq_false_iff_ne.mpr (fun h => hll h.symm)
              rw [h1, hinv l' hl']
              simp [hb]

/-! ### Helper lemmas about the formatter and the orchestrator -/

lemma string_foldl_append :
    ∀ (as : List String) (init : String),
    as.foldl (fun r s => r ++ s) init = init ++ as.foldl (fun r s => r ++ s) ""
  | [], init => by simp
  | a :: as, init => by
      simp only [List.foldl_cons]
      rw [string_foldl_append as (init ++ a), string_foldl_append as ("" ++ a)]
      rw [String.empty_append, String.append_assoc]

lemma string_join_cons (a : String) (as : List String) :
    String.join (a :: as) = a ++ String.join as := by
  simp only [String.join, List.foldl_cons]
  rw [string_foldl_append as ("" ++ a), String.empty_append]

/-- The imperative row loop of `format_email_html` (lines 71-75) appends
exactly the rendering of each result, in order. -/
lemma foldl_rows_eq_join :
    ∀ (l : List SearchResult) (init : String),
    l.foldl (fun h r => h ++ resultRow r) init = init ++ String.join (l.map resultRow)
  | [], init => by simp [String.join]
  | r :: rest, init => by
      simp only [List.foldl_cons, List.map_cons]
      rw [foldl_rows_eq_join rest (init ++ resultRow r), string_join_cons,
        String.append_assoc]

lemma format_email_html_empty (dt : String) :
    format_email_html [] dt = emailHeading dt ++ "<p>No results found.</p>" := rfl

lemma format_email_html_nonempty (results : List SearchResult) (dt : String)
    (h : results ≠ []) :
    format_email_html results dt =
      emailHeading dt ++ tableOpen ++ headerRow
        ++ String.join (results.map resultRow) ++ "</table>" := by
  simp only [format_email_html]
  rw [if_neg (by simp [h])]
  rw [foldl_rows_eq_join]

lemma queryPhase_go (fetch : String → Except String (List SearchResult)) :
    ∀ (qs : List String) (st : List SearchResult × List Event),
    qs.foldl (queryStep fetch) st
      = (st.1 ++ (qs.map (fetchResults fetch)).flatten,
         st.2 ++ (qs.map (fetchTrace fetch)).flatten)
  | [], st => by simp
  | q :: qs, st => by
      simp only [List.foldl_cons, List.map_cons, List.flatten_cons]
      rw [queryPhase_go fetch qs (queryStep fetch st q)]
      cases h : fetch q with
      | ok rs => simp [queryStep, fetchResults, fetchTrace, h, List.append_assoc]
      | error e => simp [queryStep, fetchResults, fetchTrace, h, List.append_assoc]

lemma queryPhase_eq (fetch : String → Except String (List SearchResult))
    (qs : List String) :
    queryPhase fetch qs
      = ((qs.map (fetchResults fetch)).flatten, (qs.map (fetchTrace fetch)).flatten) := by
  unfold queryPhase
  rw [queryPhase_go]
  simp

/-- The function `main` only evaluates its send parameter at the one subject/body pair
it builds, so the parameter may be replaced by the constant function with
that value. -/
lemma main_send_const (key : Option String)
    (fetch : String → Except String (List SearchResult))
    (send : String → String → Except String Unit) (now today : String) :
    main key fetch send now today
      = main key fetch
          (fun _ _ => send ("[Daily] Entry-level AI Jobs — " ++ today)
            (format_email_html (dedupResults
              (if pyTruthy key then queryPhase fetch SEARCH_QUERIES
               else (([] : List SearchResult), [Event.noKeyLogged])).1) now))
          now today := rfl

/-- Unfolding `main` when the send fails with message `e`. -/
lemma main_send_error_eq (key : Option String)
    (fetch : String → Except String (List SearchResult)) (now today e : String) :
    main key fetch (fun _ _ => Except.error e) now today
      = ((if pyTruthy key then queryPhase fetch SEARCH_QUERIES
          else (([] : List SearchResult), [Event.noKeyLogged])).2
          ++ [Event.sendAttempted ("[Daily] Entry-level AI Jobs — " ++ today)
                (format_email_html (dedupResults
                  (if pyTruthy key then queryPhase fetch SEARCH_QUERIES
                   else (([] : List SearchResult), [Event.noKeyLogged])).1) now),
              Event.sendFailureLogged e],
         dedupResults (if pyTruthy key then queryPhase fetch SEARCH_QUERIES
           else (([] : List SearchResult), [Event.noKeyLogged])).1) := rfl

/-- Unfolding `main` when the send succeeds. -/
lemma main_send_ok_eq (key : Option String)
    (fetch : String → Except String (List SearchResult)) (now today : String) :
    main key fetch (fun _ _ => Except.ok ()) now today
      = ((if pyTruthy key then queryPhase fetch SEARCH_QUERIES
          else (([] : List SearchResult), [Event.noKeyLogged])).2
          ++ [Event.sendAttempted ("[Daily] Entry-level AI Jobs — " ++ today)
                (format_email_html (dedupResults
                  (if pyTruthy key then queryPhase fetch SEARCH_QUERIES
                   else (([] : List SearchResult), [Event.noKeyLogged])).1) now),
              Event.sentLogged (dedupResults
                (if pyTruthy key then queryPhase fetch SEARCH_QUERIES
                 else (([] : List SearchResult), [Event.noKeyLogged])).1).length],
         dedupResults (if pyTruthy key then queryPhase fetch SEARCH_QUERIES
           else (([] : List SearchResult), [Event.noKeyLogged])).1) := rfl

lemma fetchTrace_cases (fetch : String → Except String (List SearchResult))
    (q : String) (ev : Event) (h : ev ∈ fetchTrace fetch q) :
    ev = Event.queryAttempted q ∨ ∃ m, ev = Event.providerErrorLogged q m := by
  unfold fetchTrace at h
  cases hf : fetch q with
  | ok rs =>
      rw [hf] at h
      simp at h
      exact Or.inl h
  | error e =>
      rw [hf] at h
      simp at h
      rcases h with h | h
      · exact Or.inl h
      · exact Or.inr ⟨e, h⟩

/-- Every event logged before the send step comes from the query phase or
the missing-key advisory. -/
lemma pretrace_shape (key : Option String)
    (fetch : String → Except String (List SearchResult)) (ev : Event)
    (h : ev ∈ (if pyTruthy key then queryPhase fetch SEARCH_QUERIES
        else (([] : List SearchResult), [Event.noKeyLogged])).2) :
    (∃ q, ev = Event.queryAttempted q) ∨ (∃ q m, ev = Event.providerErrorLogged q m)
      ∨ ev = Event.noKeyLogged := by
  by_cases hk : pyTruthy key = true
  · rw [if_pos hk, queryPhase_eq] at h
    rw [List.mem_flatten] at h
    obtain ⟨l, hl, hev⟩ := h
    obtain ⟨q, hq, rfl⟩ := List.mem_map.mp hl
    rcases fetchTrace_cases fetch q ev hev with h | ⟨m, h⟩
    · exact Or.inl ⟨q, h⟩
    · exact Or.inr (Or.inl ⟨q, m, h⟩)
  · rw [if_neg hk] at h
    simp at h
    exact Or.inr (Or.inr h)

lemma queryPhase_fst (fetch : String → Except String (List SearchResult))
    (qs : List String) :
    (queryPhase fetch qs).1 = (qs.map (fetchResults fetch)).flatten := by
  rw [queryPhase_eq]

lemma queryPhase_snd (fetch : String → Except String (List SearchResult))
    (qs : List String) :
    (queryPhase fetch qs).2 = (qs.map (fetchTrace fetch)).flatten := by
  rw [queryPhase_eq]

lemma queryAttempted_mem_fetchTrace (fetch : String → Except String (List SearchResult))
    (q : String) : Event.queryAttempted q ∈ fetchTrace fetch q := by
  unfold fetchTrace
  cases fetch q <;> simp

lemma providerErrorLogged_mem_fetchTrace
    (fetch : String → Except String (List SearchResult)) (q e : String)
    (h : fetch q = Except.error e) :
    Event.providerErrorLogged q e ∈ fetchTrace fetch q := by
  unfold fetchTrace
  rw [h]
  simp

/-- Whatever the send outcome, `main` produces the pre-send trace, then
the attempted send, then one final log entry; and its returned list is
the deduplication of the aggregated results. -/
lemma main_trace_decomp (key : Option String)
    (fetch : String → Except String (List SearchResult))
    (send : String → String → Except String Unit) (now today : String) :
    ∃ last,
      (main key fetch send now today).1
          = (if pyTruthy key then queryPhase fetch SEARCH_QUERIES
             else (([] : List SearchResult), [Event.noKeyLogged])).2
            ++ [Event.sendAttempted ("[Daily] Entry-level AI Jobs — " ++ today)
                  (format_email_html (dedupResults
                    (if pyTruthy key then queryPhase fetch SEARCH_QUERIES
                     else (([] : List SearchResult), [Event.noKeyLogged])).1) now),
                last]
        ∧ (main key fetch send now today).2
            = dedupResults (if pyTruthy key then queryPhase fetch SEARCH_QUERIES
                else (([] : List SearchResult), [Event.noKeyLogged])).1 := by
  rcases hsend : send ("[Daily] Entry-level AI Jobs — " ++ today)
      (format_email_html (dedupResults
        (if pyTruthy key then queryPhase fetch SEARCH_QUERIES
         else (([] : List SearchResult), [Event.noKeyLogged])).1) now) with e | u
  · refine ⟨Event.sendFailureLogged e, ?_, ?_⟩
    · rw [main_send_const key fetch send now today, hsend, main_send_error_eq]
    · rw [main_send_const key fetch send now today, hsend, main_send_error_eq]
  · refine ⟨Event.sentLogged (dedupResults
        (if pyTruthy key then queryPhase fetch SEARCH_QUERIES
         else (([] : List SearchResult), [Event.noKeyLogged])).1).length, ?_, ?_⟩
    · rw [main_send_const key fetch send now today, hsend, main_send_ok_eq]
    · rw [main_send_const key fetch send now today, hsend, main_send_ok_eq]

/-! ### The claims -/

/-- C1: for every input list of results (any concatenation of per-query
lists), the Aggregator output contains no two entries with the same
non-empty link value. -/
theorem aggregator_no_duplicate_nonempty_links (items : List SearchResult) :
    (dedupResults items).Pairwise
      (fun a b => ¬ ∃ l : String, l ≠ "" ∧ a.link = some l ∧ b.link = some l) := by
  have h := dedupLoop_inv MAX_RESULTS items [] [] (by simp) (by simp)
  exact h.2.imp fun hne hex =>
    hex.elim fun l hl => hne (hl.2.1.trans hl.2.2.symm)

/-- C2: for every input list, regardless of its size, the output of the
Aggregator has length at most `MAX_RESULTS` (20). -/
theorem aggregator_length_le_max (items : List SearchResult) :
    (dedupResults items).length ≤ MAX_RESULTS :=
  dedupLoop_length_le MAX_RESULTS items [] [] (by decide)

/-- C3: the Aggregator scans the concatenated input once in order and
keeps exactly the first occurrence of each non-empty link (up to the
cap), discarding later entries with an already-seen link; output order is
input order, and the A/B-x, C-y scenario yields `[A-x, C-y]`. -/
theorem aggregator_keeps_first_occurrences :
    (∀ items : List SearchResult,
      dedupResults items = (specFirstOccurrences items).take MAX_RESULTS ∧
      List.Sublist (dedupResults items) items) ∧
    dedupResults [⟨some "A", some "x", none⟩, ⟨some "B", some "x", none⟩,
        ⟨some "C", some "y", none⟩]
      = [⟨some "A", some "x", none⟩, ⟨some "C", some "y", none⟩] := by
  constructor
  · intro items
    have htake : dedupResults items = (uncappedDedup items []).take MAX_RESULTS := by
      have := dedupLoop_eq_take MAX_RESULTS items [] [] (by decide)
      simpa using this
    have hspec : uncappedDedup items [] = specFirstOccurrences items :=
      uncapped_eq_spec items [] [] (by intro l hl; simp)
    constructor
    · rw [htake, hspec]
    · rw [htake]
      exact (List.take_sublist _ _).trans (uncappedDedup_sublist items [])
  · decide

/-- C4: an entry whose link is empty or absent is never added to the
Aggregator output, never marks its link as seen, and does not count
toward the cap: the loop behaves as if such entries were filtered away. -/
theorem aggregator_ignores_falsy_links (items : List SearchResult) :
    (∀ r ∈ dedupResults items, pyTruthy r.link = true) ∧
    dedupResults items = dedupResults (items.filter fun r => pyTruthy r.link) := by
  constructor
  · intro r hr
    obtain ⟨l, hl, hne⟩ :=
      (dedupLoop_inv MAX_RESULTS items [] [] (by simp) (by simp)).1 r hr
    rw [hl]
    simp [pyTruthy, hne]
  · exact dedupLoop_filter MAX_RESULTS items [] [] (by decide)

theorem aggregator_ignores_falsy_links_witness :
    pyTruthy (SearchResult.mk (some "U") (some "x") none).link = true ∧
    dedupResults [⟨some "T", some "", none⟩, ⟨some "U", some "x", none⟩]
      = dedupResults ([⟨some "T", some "", none⟩,
          ⟨some "U", some "x", none⟩].filter fun r => pyTruthy r.link) :=
  ⟨(aggregator_ignores_falsy_links
      [⟨some "T", some "", none⟩, ⟨some "U", some "x", none⟩]).1
      ⟨some "U", some "x", none⟩ (by decide),
   (aggregator_ignores_falsy_links
      [⟨some "T", some "", none⟩, ⟨some "U", some "x", none⟩]).2⟩

/-- C5: the output of the Aggregator equals the first `MAX_RESULTS` elements of
the unbounded deduplication; once the output is full nothing appended
later is scanned; and the result depends on input order. -/
theorem aggregator_truncates_uncapped_dedup :
    (∀ items : List SearchResult,
      dedupResults items = (uncappedDedup items []).take MAX_RESULTS) ∧
    (∀ pre post : List SearchResult,
      (dedupResults pre).length = MAX_RESULTS →
      dedupResults (pre ++ post) = dedupResults pre) ∧
    (∃ xs ys : List SearchResult,
      xs.Perm ys ∧ dedupResults xs ≠ dedupResults ys) := by
  refine ⟨fun items => ?_, fun pre post h => ?_, ?_⟩
  · have := dedupLoop_eq_take MAX_RESULTS items [] [] (by decide)
    simpa using this
  · exact dedupLoop_append_of_full MAX_RESULTS pre post [] [] (by decide) h
  · refine ⟨[⟨some "A", some "x", none⟩, ⟨some "B", some "x", none⟩],
      [⟨some "B", some "x", none⟩, ⟨some "A", some "x", none⟩],
      List.Perm.swap _ _ _, by decide⟩

theorem aggregator_truncates_uncapped_dedup_witness :
    dedupResults (twentyDistinct ++ [⟨none, some "zz", none⟩])
      = dedupResults twentyDistinct :=
  aggregator_truncates_uncapped_dedup.2.1 twentyDistinct
    [⟨none, some "zz", none⟩] (by decide)

/-- C6: the Formatter emits the "no results" message on an empty
ResultSet, otherwise the table with exactly one row per result in order;
a missing title renders as "No title", a missing snippet or link as the
empty string, a missing link giving the degenerate anchor. -/
theorem formatter_renders_rows (results : List SearchResult) (dt : String) :
    (results = [] →
      format_email_html results dt = emailHeading dt ++ "<p>No results found.</p>") ∧
    (results ≠ [] →
      format_email_html results dt =
        emailHeading dt ++ tableOpen ++ headerRow
          ++ String.join (results.map resultRow) ++ "</table>") ∧
    (∀ l s : Option String, resultRow ⟨none, l, s⟩
        = "<tr><td>No title</td><td>" ++ pyOrStr s "" ++ "</td><td><a href=\x27"
          ++ pyOrStr l "" ++ "\x27>link</a></td></tr>") ∧
    resultRow ⟨none, none, none⟩
        = "<tr><td>No title</td><td></td><td><a href=\x27\x27>link</a></td></tr>" := by
  refine ⟨fun h => ?_, fun h => format_email_html_nonempty results dt h,
    fun l s => rfl, rfl⟩
  subst h
  exact format_email_html_empty dt

theorem formatter_renders_rows_witness :
    format_email_html [] "ts" = emailHeading "ts" ++ "<p>No results found.</p>" ∧
    format_email_html [⟨none, none, none⟩] "ts"
      = emailHeading "ts" ++ tableOpen ++ headerRow
        ++ String.join ([(⟨none, none, none⟩ : SearchResult)].map resultRow)
        ++ "</table>" :=
  ⟨(formatter_renders_rows [] "ts").1 rfl,
   (formatter_renders_rows [⟨none, none, none⟩] "ts").2.1 (by decide)⟩

/-- C7: the Formatter is a pure function of the ResultSet and the current
timestamp (the clock read is the explicit `dt` parameter of the
embedding): it is total, has no effects, and equal inputs give identical
HTML. -/
theorem formatter_deterministic (rs₁ rs₂ : List SearchResult) (d₁ d₂ : String)
    (h₁ : rs₁ = rs₂) (h₂ : d₁ = d₂) :
    format_email_html rs₁ d₁ = format_email_html rs₂ d₂ := by
  rw [h₁, h₂]

theorem formatter_deterministic_witness :
    format_email_html [] "ts" = format_email_html [] "ts" :=
  formatter_deterministic [] [] "ts" "ts" rfl rfl

/-- C8: a provider failure on one query does not abort the run: every
configured query is still attempted, the failure is logged per query, the
returned list aggregates exactly the results of the successful queries, and the
send is still attempted. -/
theorem provider_failure_does_not_abort (key : Option String)
    (fetch : String → Except String (List SearchResult))
    (send : String → String → Except String Unit) (now today : String)
    (hkey : pyTruthy key = true) :
    (∀ q ∈ SEARCH_QUERIES,
        Event.queryAttempted q ∈ (main key fetch send now today).1) ∧
    (∀ q e, q ∈ SEARCH_QUERIES → fetch q = Except.error e →
        Event.providerErrorLogged q e ∈ (main key fetch send now today).1) ∧
    (main key fetch send now today).2
        = dedupResults ((SEARCH_QUERIES.map (fetchResults fetch)).flatten) ∧
    (∃ s b, Event.sendAttempted s b ∈ (main key fetch send now today).1) := by
  obtain ⟨last, htr, hsnd⟩ := main_trace_decomp key fetch send now today
  rw [if_pos hkey] at htr hsnd
  rw [queryPhase_snd] at htr
  rw [queryPhase_fst] at hsnd
  refine ⟨fun q hq => ?_, fun q e hq hfe => ?_, hsnd, ?_⟩
  · rw [htr]
    exact List.mem_append_left _ (List.mem_flatten.mpr
      ⟨fetchTrace fetch q, List.mem_map_of_mem _ hq,
        queryAttempted_mem_fetchTrace fetch q⟩)
  · rw [htr]
    exact List.mem_append_left _ (List.mem_flatten.mpr
      ⟨fetchTrace fetch q, List.mem_map_of_mem _ hq,
        providerErrorLogged_mem_fetchTrace fetch q e hfe⟩)
  · exact ⟨"[Daily] Entry-level AI Jobs — " ++ today,
      format_email_html (dedupResults (queryPhase fetch SEARCH_QUERIES).1) now,
      by rw [htr]; exact List.mem_append_right _ (by simp)⟩

theorem provider_failure_does_not_abort_witness :
    Event.providerErrorLogged
        "site:indeed.com \"entry level\" \"machine learning\" \"engineer\"" "boom"
      ∈ (main (some "k") oneFailingFetch okSend "now" "2026-10-12").1 :=
  (provider_failure_does_not_abort (some "k") oneFailingFetch okSend
      "now" "2026-10-12" (by decide)).2.1
    "site:indeed.com \"entry level\" \"machine learning\" \"engineer\"" "boom"
    (by decide) rfl

/-- C9: if the email send fails for any reason, `main` catches the error
and logs the failure as its final action, returning normally (the
embedding is a total function) and never logging success; if the send
succeeds, it logs the count of items sent. -/
theorem send_outcome_logged (key : Option String)
    (fetch : String → Except String (List SearchResult)) (now today e : String) :
    (∃ pre s b,
      (main key fetch (fun _ _ => Except.error e) now today).1
          = pre ++ [Event.sendAttempted s b, Event.sendFailureLogged e] ∧
      ∀ n, Event.sentLogged n
          ∉ (main key fetch (fun _ _ => Except.error e) now today).1) ∧
    (∃ pre s b,
      (main key fetch (fun _ _ => Except.ok ()) now today).1
          = pre ++ [Event.sendAttempted s b,
              Event.sentLogged
                (main key fetch (fun _ _ => Except.ok ()) now today).2.length] ∧
      ∀ m, Event.sendFailureLogged m
          ∉ (main key fetch (fun _ _ => Except.ok ()) now today).1) := by
  constructor
  · refine ⟨(if pyTruthy key then queryPhase fetch SEARCH_QUERIES
        else (([] : List SearchResult), [Event.noKeyLogged])).2,
      "[Daily] Entry-level AI Jobs — " ++ today,
      format_email_html (dedupResults
        (if pyTruthy key then queryPhase fetch SEARCH_QUERIES
         else (([] : List SearchResult), [Event.noKeyLogged])).1) now, ?_, ?_⟩
    · rw [main_send_error_eq]
    · intro n hn
      rw [main_send_error_eq] at hn
      rcases List.mem_append.mp hn with h | h
      · rcases pretrace_shape key fetch _ h with ⟨q, hq⟩ | ⟨q, m, hq⟩ | hq <;> simp at hq
      · simp at h
  · refine ⟨(if pyTruthy key then queryPhase fetch SEARCH_QUERIES
        else (([] : List SearchResult), [Event.noKeyLogged])).2,
      "[Daily] Entry-level AI Jobs — " ++ today,
      format_email_html (dedupResults
        (if pyTruthy key then queryPhase fetch SEARCH_QUERIES
         else (([] : List SearchResult), [Event.noKeyLogged])).1) now, ?_, ?_⟩
    · rw [main_send_ok_eq]
    · intro m hm
      rw [main_send_ok_eq] at hm
      rcases List.mem_append.mp hm with h | h
      · rcases pretrace_shape key fetch _ h with ⟨q, hq⟩ | ⟨q, m', hq⟩ | hq <;> simp at hq
      · simp at h

theorem send_outcome_logged_witness :
    ∃ pre s b,
      (main (some "k") oneFailingFetch (fun _ _ => Except.error "smtp down")
          "now" "2026-10-12").1
        = pre ++ [Event.sendAttempted s b, Event.sendFailureLogged "smtp down"] ∧
      ∀ n, Event.sentLogged n
          ∉ (main (some "k") oneFailingFetch (fun _ _ => Except.error "smtp down")
              "now" "2026-10-12").1 :=
  (send_outcome_logged (some "k") oneFailingFetch "now" "2026-10-12" "smtp down").1

/-- C10: defaults are applied by truthiness, not only by absence: a
present-but-empty title renders as "No title", and a present-but-empty
link is treated by the Aggregator exactly like a missing link — never
added, never marked seen. -/
theorem empty_fields_treated_as_missing (t l s : Option String)
    (rest : List SearchResult) (seen : List String) (acc : List SearchResult)
    (maxR : Nat) :
    resultRow ⟨some "", l, s⟩ = resultRow ⟨none, l, s⟩ ∧
    pyOrStr (some "") "No title" = "No title" ∧
    dedupStep seen acc ⟨t, some "", s⟩ = (seen, acc) ∧
    dedupLoop maxR (⟨t, some "", s⟩ :: rest) seen acc
      = dedupLoop maxR (⟨t, none, s⟩ :: rest) seen acc := by
  have h1 : dedupStep seen acc ⟨t, some "", s⟩ = (seen, acc) :=
    dedupStep_skip seen acc rfl (by simp)
  have h2 : dedupStep seen acc ⟨t, none, s⟩ = (seen, acc) :=
    dedupStep_none seen acc rfl
  refine ⟨by simp [resultRow, pyOrStr], rfl, h1, ?_⟩
  rw [dedupLoop_cons, dedupLoop_cons, h1, h2]

end JobSearchEmailer
